import Mathlib

/-!
Verification of the `cortex::matrix` container (src/matrix.hpp) against its
natural-language specification.

The container is shallowly embedded: a matrix value records its four
bookkeeping fields (`m_rows`, `m_columns`, `m_size`, `m_capacity`) and the
live, constructed elements of its buffer as a row-major list.  Machine-level
aspects without observable value semantics (raw addresses, uninitialized
slots read as indeterminate values) are modelled explicitly where an
operation's behaviour depends on them (see `MatrixBuf` for the
initializer-list constructor, whose buffer may keep unconstructed holes).
Fallible operations (the source throws `std::invalid_argument` /
`std::out_of_range`) return `Except MatrixError`.
-/

namespace Cortex

/-- Error kinds of the container, named as in the specification.
`dimensionMismatch` and `emptyOperand` and `divideByZero` are thrown by the
source as `std::invalid_argument` with distinct messages; `outOfRange` is
`std::out_of_range`. -/
inductive MatrixError where
  | dimensionMismatch
  | outOfRange
  | emptyOperand
  | divideByZero
deriving DecidableEq, Repr

/-- Size rule of the dimensioned constructors and of `reserve`
(src lines 116, 139, 189, 265, 334):
`rows * cols != 0 ? rows * cols : std::max(rows, cols)`. -/
def dimSize (rows cols : Nat) : Nat :=
  if rows * cols ≠ 0 then rows * cols else max rows cols

/-- The matrix state: the four size fields plus the live elements of the
buffer in row-major order (`data` models the constructed range
`[m_data, m_data + m_size)`; the raw buffer holds `capacity` slots, the
slots past the live range being allocated but unconstructed). -/
structure Matrix (α : Type) where
  rows : Nat
  columns : Nat
  size : Nat
  capacity : Nat
  data : List α
deriving DecidableEq, Repr

/-- Default constructor (src lines 95-101): all fields zero, null buffer. -/
def defaultMatrix : Matrix α := ⟨0, 0, 0, 0, []⟩

/-- `dimensions()` (src line 432): `std::tie(m_columns, m_rows)`. -/
def Matrix.dims (m : Matrix α) : Nat × Nat := (m.columns, m.rows)

/-- `empty()` (src line 451): `m_size == 0`. -/
def Matrix.isEmpty (m : Matrix α) : Bool := m.size == 0

/-- Size constructor `matrix(rows, cols)` (src lines 113-124).  Every one of
the `dimSize rows cols` slots is default-constructed; `dflt` stands for the
value the element type's default construction produces. -/
def withDims (dflt : α) (rows cols : Nat) : Matrix α :=
  ⟨rows, cols, dimSize rows cols, dimSize rows cols,
   List.replicate (dimSize rows cols) dflt⟩

/-- Size + value constructor `matrix(rows, cols, value)` (src lines 136-142):
every slot is copy-constructed from `value`. -/
def withDimsFill (rows cols : Nat) (value : α) : Matrix α :=
  ⟨rows, cols, dimSize rows cols, dimSize rows cols,
   List.replicate (dimSize rows cols) value⟩

/-- Move constructor (src lines 167-178).  Returns (destination, source
after the move).  The destination takes all four fields and the buffer;
the source's `m_data`, `m_columns`, `m_rows`, `m_size` are reset to zero
but `m_capacity` is NOT touched by the source (lines 174-177). -/
def moveCtor (m : Matrix α) : Matrix α × Matrix α :=
  (⟨m.rows, m.columns, m.size, m.capacity, m.data⟩,
   ⟨0, 0, 0, m.capacity, []⟩)

/-- `std::equal(lhs.begin(), lhs.end(), rhs.begin())` as used by
`operator==` (src line 1002): walks exactly the left range.  The case of a
left range longer than the right buffer reads past the provided range in
the source (undefined); it is unreachable for dimension-equal matrices
whose `data` length equals their `size`, and is modelled as `true`
(an empty left remainder trivially compares equal). -/
def stdEqual [DecidableEq α] : List α → List α → Bool
  | [], _ => true
  | _ :: _, [] => true
  | x :: xs, y :: ys => decide (x = y) && stdEqual xs ys

/-- `operator==(const matrix&, const matrix&)` (src lines 996-1003): false
immediately if `dimensions()` differ, else `std::equal` over the left
range. -/
def Matrix.beq [DecidableEq α] (a b : Matrix α) : Bool :=
  if a.dims ≠ b.dims then false else stdEqual a.data b.data

/-- `operator!=` (src lines 1044-1047): negation of `operator==`. -/
def matNe [DecidableEq α] (a b : Matrix α) : Bool := !(Matrix.beq a b)

/-- Move assignment (src lines 237-253).  Guarded by `if (*this != other)`:
when the two matrices compare equal nothing happens at all; otherwise the
destination takes `other`'s fields and buffer and the source's `m_data`,
`m_rows`, `m_columns`, `m_size` are zeroed — `m_capacity` again is not
(lines 247-250).  Returns (destination, source after the assignment). -/
def moveAssign [DecidableEq α] (dst src : Matrix α) : Matrix α × Matrix α :=
  if Matrix.beq dst src then (dst, src)
  else (⟨src.rows, src.columns, src.size, src.capacity, src.data⟩,
        ⟨0, 0, 0, src.capacity, []⟩)

/-- `reserve(new_rows, new_columns)` (src lines 332-354).  When the computed
`new_capacity` exceeds the current capacity, a buffer of `new_capacity`
slots is allocated, the `m_size` live elements are moved into its front in
their prior order (the list of live elements is unchanged), and
`m_data`, `m_capacity`, `m_rows`, `m_columns` are updated; `m_size` is not.
When `new_capacity <= m_capacity` the body is skipped entirely: the source
has no else branch, so nothing — not even `m_rows`/`m_columns` — changes. -/
def reserve (m : Matrix α) (newRows newCols : Nat) : Matrix α :=
  let newCapacity := dimSize newRows newCols
  if newCapacity > m.capacity then
    ⟨newRows, newCols, m.size, newCapacity, m.data⟩
  else m

/-- `clear()` (src lines 364-374): guarded by `if (m_size)`.  With live
elements present they are destroyed and `m_size`, `m_rows`, `m_columns`
are zeroed; the buffer and `m_capacity` stay.  With `m_size == 0` the body
is skipped and nothing changes. -/
def clear (m : Matrix α) : Matrix α :=
  if m.size ≠ 0 then ⟨0, 0, 0, m.capacity, []⟩ else m

/-- `at(row, column)` (src lines 493-497, range check lines 917-921): throws
`std::out_of_range` when `row >= row_size() or column >= column_size()`,
else dereferences `m_data + (m_columns * row) + column`.  The dereference
is modelled with `List.get?`: a slot inside the live range yields its
element, a slot past it (allocated but unconstructed — reachable after
`reserve` growth) yields `none`. -/
def matAt (m : Matrix α) (row col : Nat) : Except MatrixError (Option α) :=
  if row ≥ m.rows ∨ col ≥ m.columns then .error .outOfRange
  else .ok (m.data.get? (m.columns * row + col))

/-- `operator()(row, column)` (src lines 528-529): delegates to `at`. -/
def matCall (m : Matrix α) (row col : Nat) : Except MatrixError (Option α) :=
  matAt m row col

/-- Writing the output of `std::transform` into a freshly constructed result
buffer: the produced elements overwrite the front of the buffer, the
remaining slots keep their constructed-but-untouched values.  (Producing
more elements than the buffer holds would write past the allocation in the
source; the model appends, and the case is unreachable for well-formed
operands.) -/
def overwriteFront : List γ → List γ → List γ
  | [], buf => buf
  | x :: xs, [] => x :: overwriteFront xs []
  | x :: xs, _ :: bs => x :: overwriteFront xs bs

/-- Common template of `add` / `sub` / `mul` / `div` between matrices
(src lines 695-706, 729-740, 763-774, 830-841): throw when
`this->dimensions() != other.dimensions()`, else build
`result(this->row_size(), this->column_size())` (its slots constructed
with `dflt`, the element type's default-construction value) and
`std::transform` the zipped operand ranges into its front. -/
def elemwise (dflt : γ) (op : α → β → γ) (a : Matrix α) (b : Matrix β) :
    Except MatrixError (Matrix γ) :=
  if a.dims ≠ b.dims then .error .dimensionMismatch
  else .ok ⟨a.rows, a.columns, dimSize a.rows a.columns, dimSize a.rows a.columns,
            overwriteFront (List.zipWith op a.data b.data)
              (List.replicate (dimSize a.rows a.columns) dflt)⟩

/-- `add(const matrix&)` (src lines 695-706), at element type `Int`. -/
def Matrix.add (a b : Matrix Int) : Except MatrixError (Matrix Int) :=
  elemwise 0 (· + ·) a b

/-- `sub(const matrix&)` (src lines 729-740), at element type `Int`. -/
def Matrix.sub (a b : Matrix Int) : Except MatrixError (Matrix Int) :=
  elemwise 0 (· - ·) a b

/-- Elementwise `mul(const matrix&)` (src lines 763-774), at `Int`. -/
def Matrix.mul (a b : Matrix Int) : Except MatrixError (Matrix Int) :=
  elemwise 0 (· * ·) a b

/-- Elementwise `div(const matrix&)` (src lines 830-841), at `Int`.
`std::divides` on integers is C++ truncating (toward-zero) division,
i.e. `Int.tdiv`; no zero check is performed on divisor elements. -/
def Matrix.div (a b : Matrix Int) : Except MatrixError (Matrix Int) :=
  elemwise 0 Int.tdiv a b

/-- Scalar `mul(const _ScalarT&)` (src lines 792-803), at `Int`: throw on an
empty matrix, else transform every element by `(* scalar)` into a fresh
`result(row_size(), column_size())`. -/
def Matrix.mulScalar (m : Matrix Int) (scalar : Int) :
    Except MatrixError (Matrix Int) :=
  if m.isEmpty then .error .emptyOperand
  else .ok ⟨m.rows, m.columns, dimSize m.rows m.columns, dimSize m.rows m.columns,
            overwriteFront (m.data.map (· * scalar))
              (List.replicate (dimSize m.rows m.columns) 0)⟩

/-- Scalar `div(const _ScalarT&)` (src lines 862-875), at `Int`: throw on an
empty matrix, then throw when `scalar == 0`, else transform every element
by `(/ scalar)` — C++ truncating integer division, `Int.tdiv`. -/
def Matrix.divScalar (m : Matrix Int) (scalar : Int) :
    Except MatrixError (Matrix Int) :=
  if m.isEmpty then .error .emptyOperand
  else if scalar = 0 then .error .divideByZero
  else .ok ⟨m.rows, m.columns, dimSize m.rows m.columns, dimSize m.rows m.columns,
            overwriteFront (m.data.map (fun e => Int.tdiv e scalar))
              (List.replicate (dimSize m.rows m.columns) 0)⟩

/-- `std::lexicographical_compare(l.begin(), l.end(), r.begin(), r.end())`
as used by `operator<` (src lines 1060-1065): walk both ranges, decide on
the first position where `lt` holds one way; a left range that runs out
first is less, a right range that runs out first is not. -/
def lexLess (lt : α → α → Bool) : List α → List α → Bool
  | _, [] => false
  | [], _ :: _ => true
  | x :: xs, y :: ys =>
    if lt x y then true
    else if lt y x then false
    else lexLess lt xs ys

/-- `operator<` (src lines 1059-1065): lexicographic comparison of the two
flat element ranges; dimensions are not consulted. -/
def matLt (lt : α → α → Bool) (a b : Matrix α) : Bool :=
  lexLess lt a.data b.data

/-- `operator>` (src lines 1080-1083): `rhs < lhs`. -/
def matGt (lt : α → α → Bool) (a b : Matrix α) : Bool := matLt lt b a

/-- `operator<=` (src lines 1100-1103): `!(rhs < lhs)`. -/
def matLe (lt : α → α → Bool) (a b : Matrix α) : Bool := !(matLt lt b a)

/-- `operator>=` (src lines 1118-1121): `!(lhs < rhs)`. -/
def matGe (lt : α → α → Bool) (a b : Matrix α) : Bool := !(matLt lt a b)

/-- Element-level `operator<` of `Int`, the comparator the instantiated
`std::lexicographical_compare` uses. -/
def intLtB (x y : Int) : Bool := decide (x < y)

/-- A matrix state as produced by the initializer-list constructor: the
buffer keeps each of its `capacity` slots explicitly, `none` marking a slot
that was never constructed. -/
structure MatrixBuf (α : Type) where
  rows : Nat
  columns : Nat
  size : Nat
  capacity : Nat
  buf : List (Option α)
deriving DecidableEq, Repr

/-- `std::uninitialized_move_n(row->begin(), m_columns, m_data + offset)`
(src line 199): the row's elements land in consecutive slots from `off`. -/
def writeRow : List (Option α) → Nat → List α → List (Option α)
  | buf, _, [] => buf
  | buf, off, x :: xs => writeRow (buf.set off (some x)) (off + 1) xs

/-- The row loop of the initializer-list constructor (src lines 194-201)
and of initializer-list assignment (src lines 270-277): each row is first
length-checked against `m_columns` (throwing before any later row is
touched), then written at the current destination offset — and the offset
then advances by the literal constant 2 (`offset += 2`, src lines 200 and
276), not by `m_columns`. -/
def initRows (cols : Nat) :
    List (Option α) → Nat → List (List α) → Except MatrixError (List (Option α))
  | buf, _, [] => .ok buf
  | buf, off, r :: rs =>
    if r.length ≠ cols then .error .dimensionMismatch
    else initRows cols (writeRow buf off r) (off + 2) rs

/-- Initializer-list construction/assignment from a nested list
(src lines 186-202 and 261-280; both run the identical field setup and row
loop): `m_rows` is the outer length, `m_columns` the first inner list's
length (dereferencing `list.begin()` on an empty outer list is undefined
in the source; modelled as length 0), `m_size`/`m_capacity` follow the
`dimSize` rule, and the freshly allocated buffer starts fully
unconstructed. -/
def fromNested (l : List (List α)) : Except MatrixError (MatrixBuf α) :=
  let rows := l.length
  let cols := (l.headD []).length
  let sz := dimSize rows cols
  (initRows cols (List.replicate sz (none : Option α)) 0 l).map
    (fun buf => ⟨rows, cols, sz, sz, buf⟩)

/-- Well-formedness of a matrix state: the live element list matches the
recorded `size`, the `size` matches the dimension rule (invariant I1 of the
specification), and the capacity bounds the size (invariant I2).  All
constructor-produced matrices satisfy it; `reserve` can break the I1
part. -/
def WF (m : Matrix α) : Prop :=
  m.data.length = m.size ∧ m.size = dimSize m.rows m.columns ∧ m.size ≤ m.capacity

lemma overwriteFront_eq_append (xs bs : List γ) :
    overwriteFront xs bs = xs ++ bs.drop xs.length := by
  induction xs generalizing bs with
  | nil => simp [overwriteFront]
  | cons x xs ih =>
    cases bs with
    | nil => simp [overwriteFront, ih]
    | cons b bs => simp [overwriteFront, ih]

lemma overwriteFront_exact (xs : List γ) (n : Nat) (d : γ) (h : xs.length = n) :
    overwriteFront xs (List.replicate n d) = xs := by
  rw [overwriteFront_eq_append, h, List.drop_replicate, Nat.sub_self,
    List.replicate_zero, List.append_nil]

lemma dims_fst (a b : Matrix α) (h : a.dims = b.dims) : a.columns = b.columns :=
  congrArg Prod.fst h

lemma dims_snd (a b : Matrix α) (h : a.dims = b.dims) : a.rows = b.rows :=
  congrArg Prod.snd h

lemma elemwise_ok (dflt : γ) (op : α → β → γ) (a : Matrix α) (b : Matrix β)
    (ha : WF a) (hb : WF b) (hd : a.dims = b.dims) :
    elemwise dflt op a b =
      .ok ⟨a.rows, a.columns, a.size, a.size, List.zipWith op a.data b.data⟩ := by
  obtain ⟨hla, hsa, -⟩ := ha
  obtain ⟨hlb, hsb, -⟩ := hb
  have hc : a.columns = b.columns := by
    simpa [Matrix.dims] using congrArg Prod.fst hd
  have hr : a.rows = b.rows := by
    simpa [Matrix.dims] using congrArg Prod.snd hd
  have hsz : b.size = a.size := by rw [hsb, ← hc, ← hr, ← hsa]
  have hzlen : (List.zipWith op a.data b.data).length = a.size := by
    rw [List.length_zipWith, hla, hlb, hsz, Nat.min_self]
  unfold elemwise
  rw [if_neg (not_not_intro hd), hsa.symm, overwriteFront_exact _ _ _ hzlen]

lemma elemwise_err (dflt : γ) (op : α → β → γ) (a : Matrix α) (b : Matrix β)
    (hd : a.dims ≠ b.dims) :
    elemwise dflt op a b = .error .dimensionMismatch := by
  unfold elemwise
  rw [if_pos hd]

lemma stdEqual_iff [DecidableEq α] (xs ys : List α) (h : xs.length = ys.length) :
    (stdEqual xs ys = true ↔ xs = ys) := by
  induction xs generalizing ys with
  | nil =>
    cases ys with
    | nil => simp [stdEqual]
    | cons y ys => simp at h
  | cons x xs ih =>
    cases ys with
    | nil => simp at h
    | cons y ys =>
      have hlen : xs.length = ys.length := by simpa using h
      simp [stdEqual, ih ys hlen]

lemma lexLess_iff (xs ys : List Int) :
    lexLess intLtB xs ys = true ↔ List.Lex (· < ·) xs ys := by
  induction xs generalizing ys with
  | nil =>
    cases ys with
    | nil =>
      refine ⟨fun h => by simp [lexLess] at h, fun h => by cases h⟩
    | cons y ys =>
      exact ⟨fun _ => List.Lex.nil, fun _ => rfl⟩
  | cons x xs ih =>
    cases ys with
    | nil =>
      refine ⟨fun h => by simp [lexLess] at h, fun h => by cases h⟩
    | cons y ys =>
      rcases lt_trichotomy x y with h | h | h
      · refine ⟨fun _ => List.Lex.rel h, fun _ => ?_⟩
        simp [lexLess, intLtB, h]
      · subst h
        constructor
        · intro hlex
          have : lexLess intLtB xs ys = true := by
            simpa [lexLess, intLtB] using hlex
          exact List.Lex.cons ((ih ys).mp this)
        · intro hlex
          have htail : List.Lex (· < ·) xs ys := by
            cases hlex with
            | cons htl => exact htl
            | rel hxy => exact absurd hxy (lt_irrefl x)
          simpa [lexLess, intLtB] using (ih ys).mpr htail
      · constructor
        · intro hcomp
          have : lexLess intLtB (x :: xs) (y :: ys) = false := by
            simp [lexLess, intLtB, h, not_lt_of_gt h]
          rw [hcomp] at this
          cases this
        · intro hlex
          cases hlex with
          | cons _ => exact absurd h (lt_irrefl x)
          | rel hxy => exact absurd hxy (not_lt_of_gt h)

lemma offset_lt_dimSize (rows cols r c : Nat) (hr : r < rows) (hc : c < cols) :
    cols * r + c < dimSize rows cols := by
  have hmul : rows * cols ≠ 0 := Nat.mul_ne_zero (by omega) (by omega)
  unfold dimSize
  rw [if_pos hmul]
  calc cols * r + c < cols * r + cols := by omega
    _ = cols * (r + 1) := by ring
    _ ≤ cols * rows := Nat.mul_le_mul_left _ (by omega)
    _ = rows * cols := Nat.mul_comm _ _

/-- C1.  Construction from a nested list sets rows to the outer length and
columns to the first inner length, and fails with a dimension mismatch as
soon as an inner list's length differs (here on input `[[1,2],[3]]`, and on
`[[1,2],[3,4,5],[9,9]]` where the bad middle row is caught).  But the
row-major placement part of the claim FAILS: the loop advances the write
offset by the literal 2 per row, so on `[[1,2,3],[4,5,6]]` the element of
row 1, column 0 (the value 4) lands at flat offset 2 instead of
`1*columns + 0 = 3`; flat offset 3 holds 5, and the last buffer slot is
never constructed.  Only for `columns = 2` (third conjunct) does the layout
match the claim. -/
theorem from_nested_offset_bug_eval :
    fromNested [[(1 : Int), 2, 3], [4, 5, 6]] =
      .ok ⟨2, 3, 6, 6, [some 1, some 2, some 4, some 5, some 6, none]⟩ ∧
    (fromNested [[(1 : Int), 2, 3], [4, 5, 6]]).map (fun m => m.buf.get? 3) =
      .ok (some (some 5)) ∧
    fromNested [[(1 : Int), 2], [3, 4]] =
      .ok ⟨2, 2, 4, 4, [some 1, some 2, some 3, some 4]⟩ ∧
    fromNested [[(1 : Int), 2], [3]] = .error .dimensionMismatch ∧
    fromNested [[(1 : Int), 2], [3, 4, 5], [9, 9]] = .error .dimensionMismatch :=
  ⟨rfl, rfl, rfl, rfl, rfl⟩

/-- C2.  Move construction and move assignment transfer rows, columns, size,
capacity and the live elements to the destination, but the claim that the
source is reset to the all-zero default state FAILS: the source keeps its
old `m_capacity` (here 1, not 0).  Additionally, move assignment between
matrices that compare equal is a complete no-op: the source is not reset at
all (last conjunct). -/
theorem move_reset_eval :
    moveCtor (withDimsFill 1 1 (5 : Int)) = (⟨1, 1, 1, 1, [5]⟩, ⟨0, 0, 0, 1, []⟩) ∧
    (moveCtor (withDimsFill 1 1 (5 : Int))).2.capacity ≠ 0 ∧
    moveAssign (defaultMatrix : Matrix Int) (withDimsFill 1 1 5) =
      (⟨1, 1, 1, 1, [5]⟩, ⟨0, 0, 0, 1, []⟩) ∧
    moveAssign (withDimsFill 1 1 (5 : Int)) (withDimsFill 1 1 5) =
      (withDimsFill 1 1 5, withDimsFill 1 1 5) :=
  ⟨rfl, by decide, rfl, rfl⟩

/-- C3.  `reserve` with a new capacity at most the current capacity is a
complete no-op in the code — the claim that it updates the logical rows and
columns FAILS: shrinking a 2x2 matrix to 1x1 leaves every field (rows still
2) and the elements untouched.  The growth half of the claim behaves as
stated: growing the same 2x2 matrix to 3x3 allocates capacity 9, keeps the
4 live elements front-packed in their prior row-major order, updates rows,
columns and capacity (and leaves `m_size` at 4). -/
theorem reserve_shrink_noop_eval :
    reserve (withDimsFill 2 2 (7 : Int)) 1 1 = withDimsFill 2 2 7 ∧
    (reserve (withDimsFill 2 2 (7 : Int)) 1 1).rows ≠ 1 ∧
    (reserve (withDimsFill 2 2 (7 : Int)) 1 1).columns ≠ 1 ∧
    reserve (withDimsFill 2 2 (7 : Int)) 3 3 = ⟨3, 3, 4, 9, [7, 7, 7, 7]⟩ :=
  ⟨rfl, by decide, by decide, rfl⟩

/-- C9 counterexample.  The claim says `clear()` zeroes size, rows and
columns on every matrix; it fails on a matrix whose `m_size` is 0 while its
rows/columns are not (reachable by calling `reserve(2,3)` on a default
matrix, which updates rows/columns but not size): the `if (m_size)` guard
skips the whole body, leaving rows = 2 and columns = 3. -/
theorem clear_skips_zero_size_cex :
    clear (reserve (defaultMatrix : Matrix Int) 2 3) =
      reserve (defaultMatrix : Matrix Int) 2 3 ∧
    (clear (reserve (defaultMatrix : Matrix Int) 2 3)).rows ≠ 0 ∧
    (clear (reserve (defaultMatrix : Matrix Int) 2 3)).columns ≠ 0 :=
  ⟨rfl, by decide, by decide⟩

/-- C9 as amended.  For every matrix with nonzero size, `clear()` destroys
all live elements and zeroes size, rows and columns, while the capacity
(and the buffer allocation it measures) is left exactly as before; on a
matrix whose size is already zero, `clear()` changes nothing at all. -/
theorem clear_behavior (m : Matrix α) :
    (m.size ≠ 0 → clear m = ⟨0, 0, 0, m.capacity, []⟩) ∧
    (m.size = 0 → clear m = m) ∧
    (clear m).capacity = m.capacity := by
  refine ⟨fun h => ?_, fun h => ?_, ?_⟩
  · simp [clear, h]
  · simp [clear, h]
  · by_cases h : m.size = 0 <;> simp [clear, h]

/-- Witness for `clear_behavior` at concrete inputs: a full 2x2 matrix is
cleared down to capacity 4, and the default matrix is left unchanged. -/
theorem clear_behavior_witness :
    clear (withDimsFill 2 2 (7 : Int)) = ⟨0, 0, 0, 4, []⟩ ∧
    clear (defaultMatrix : Matrix Int) = defaultMatrix :=
  ⟨((clear_behavior (withDimsFill 2 2 (7 : Int))).1 (by decide)).trans rfl,
   (clear_behavior (defaultMatrix : Matrix Int)).2.1 rfl⟩

/-- C7.  The dimensioned constructors produce `size() = rows*cols` when both
dimensions are nonzero and `size() = max rows cols` when either is zero,
with `capacity() = size()`; `with_dims` fills every slot with the element
type's default-construction value `dflt`, and `with_dims_fill` fills every
slot with the given value. -/
theorem dimensioned_ctor_spec (dflt v : α) (r c : Nat) :
    (withDims dflt r c).rows = r ∧
    (withDims dflt r c).columns = c ∧
    (r ≠ 0 → c ≠ 0 → (withDims dflt r c).size = r * c) ∧
    (r = 0 ∨ c = 0 → (withDims dflt r c).size = max r c) ∧
    (withDims dflt r c).capacity = (withDims dflt r c).size ∧
    (withDims dflt r c).data = List.replicate (withDims dflt r c).size dflt ∧
    (r ≠ 0 → c ≠ 0 → (withDimsFill r c v).size = r * c) ∧
    (r = 0 ∨ c = 0 → (withDimsFill r c v).size = max r c) ∧
    (withDimsFill r c v).capacity = (withDimsFill r c v).size ∧
    (withDimsFill r c v).data = List.replicate (withDimsFill r c v).size v := by
  refine ⟨rfl, rfl, fun hr hc => ?_, fun h => ?_, rfl, rfl, fun hr hc => ?_,
    fun h => ?_, rfl, rfl⟩
  · simp [withDims, dimSize, Nat.mul_ne_zero hr hc]
  · have hz : r * c = 0 := by rcases h with h | h <;> simp [h]
    simp [withDims, dimSize, hz]
  · simp [withDimsFill, dimSize, Nat.mul_ne_zero hr hc]
  · have hz : r * c = 0 := by rcases h with h | h <;> simp [h]
    simp [withDimsFill, dimSize, hz]

/-- Witness for `dimensioned_ctor_spec`: a 2x3 construction has size and
capacity 6 with all six slots filled, and the degenerate 0x5 construction
has size 5. -/
theorem dimensioned_ctor_spec_witness :
    (withDims (0 : Int) 2 3).size = 6 ∧
    (withDims (0 : Int) 0 5).size = 5 ∧
    (withDimsFill 2 3 (9 : Int)).data = List.replicate 6 9 ∧
    (withDimsFill 5 0 (9 : Int)).size = 5 := by
  refine ⟨?_, ?_, ?_, ?_⟩
  · exact ((dimensioned_ctor_spec (0 : Int) 0 2 3).2.2.1 (by decide) (by decide)).trans rfl
  · exact ((dimensioned_ctor_spec (0 : Int) 0 0 5).2.2.2.1 (Or.inl rfl)).trans rfl
  · exact ((dimensioned_ctor_spec (0 : Int) 9 2 3).2.2.2.2.2.2.2.2.2).trans (by rfl)
  · exact ((dimensioned_ctor_spec (0 : Int) 9 5 0).2.2.2.2.2.2.2.1 (Or.inr rfl)).trans rfl

/-- C4.  For well-formed operands, each of `add`, `sub`, elementwise `mul`
and elementwise `div` fails with a dimension mismatch exactly when the
operands' dimensions differ (and, being pure functions of their operands in
this embedding, mutate neither); with equal dimensions each returns a fresh
matrix of the same dimensions whose flat element list is the operator
zipped over the two operands' flat row-major element lists — i.e. the
element at every flat offset `i` is the operator applied to the operands'
elements at offset `i`. -/
theorem arith_elemwise_spec (a b : Matrix Int) (ha : WF a) (hb : WF b) :
    (a.dims ≠ b.dims →
      a.add b = .error .dimensionMismatch ∧
      a.sub b = .error .dimensionMismatch ∧
      a.mul b = .error .dimensionMismatch ∧
      a.div b = .error .dimensionMismatch) ∧
    (a.dims = b.dims →
      a.add b = .ok ⟨a.rows, a.columns, a.size, a.size,
        List.zipWith (· + ·) a.data b.data⟩ ∧
      a.sub b = .ok ⟨a.rows, a.columns, a.size, a.size,
        List.zipWith (· - ·) a.data b.data⟩ ∧
      a.mul b = .ok ⟨a.rows, a.columns, a.size, a.size,
        List.zipWith (· * ·) a.data b.data⟩ ∧
      a.div b = .ok ⟨a.rows, a.columns, a.size, a.size,
        List.zipWith Int.tdiv a.data b.data⟩) := by
  constructor
  · intro hd
    exact ⟨elemwise_err _ _ a b hd, elemwise_err _ _ a b hd,
      elemwise_err _ _ a b hd, elemwise_err _ _ a b hd⟩
  · intro hd
    exact ⟨elemwise_ok _ _ a b ha hb hd, elemwise_ok _ _ a b ha hb hd,
      elemwise_ok _ _ a b ha hb hd, elemwise_ok _ _ a b ha hb hd⟩

/-- Witness for `arith_elemwise_spec`: the 2x2 examples of property P8 of
the specification, plus a 2x3-against-3x2 mismatch. -/
theorem arith_elemwise_spec_witness :
    Matrix.add ⟨2, 2, 4, 4, [1, 2, 3, 4]⟩ ⟨2, 2, 4, 4, [5, 6, 7, 8]⟩ =
      .ok ⟨2, 2, 4, 4, [6, 8, 10, 12]⟩ ∧
    Matrix.sub ⟨2, 2, 4, 4, [1, 2, 3, 4]⟩ ⟨2, 2, 4, 4, [5, 6, 7, 8]⟩ =
      .ok ⟨2, 2, 4, 4, [-4, -4, -4, -4]⟩ ∧
    Matrix.mul ⟨2, 2, 4, 4, [1, 2, 3, 4]⟩ ⟨2, 2, 4, 4, [5, 6, 7, 8]⟩ =
      .ok ⟨2, 2, 4, 4, [5, 12, 21, 32]⟩ ∧
    Matrix.add ⟨2, 3, 6, 6, [1, 2, 3, 4, 5, 6]⟩ ⟨3, 2, 6, 6, [1, 2, 3, 4, 5, 6]⟩ =
      .error .dimensionMismatch := by
  have hok := (arith_elemwise_spec ⟨2, 2, 4, 4, [1, 2, 3, 4]⟩ ⟨2, 2, 4, 4, [5, 6, 7, 8]⟩
    ⟨rfl, rfl, by decide⟩ ⟨rfl, rfl, by decide⟩).2 rfl
  have herr := (arith_elemwise_spec ⟨2, 3, 6, 6, [1, 2, 3, 4, 5, 6]⟩
    ⟨3, 2, 6, 6, [1, 2, 3, 4, 5, 6]⟩ ⟨rfl, rfl, by decide⟩ ⟨rfl, rfl, by decide⟩).1
    (by decide)
  exact ⟨hok.1.trans (by rfl), hok.2.1.trans (by rfl), hok.2.2.1.trans (by rfl),
    herr.1⟩

/-- C10.  Elementwise matrix-matrix `div` performs only the dimension check:
for well-formed same-dimension operands it always succeeds, applying
truncating division unguarded to every element pair (zero divisor elements
included — the embedding's total `Int.tdiv` stands for the raw, uncheckable
application of `operator/`); the only error it can ever return is the
dimension mismatch, never a divide-by-zero, which arises only from the
scalar-divisor overload (last conjunct). -/
theorem div_matrix_unguarded (a b : Matrix Int) (ha : WF a) (hb : WF b) :
    (a.dims = b.dims →
      a.div b = .ok ⟨a.rows, a.columns, a.size, a.size,
        List.zipWith Int.tdiv a.data b.data⟩) ∧
    (∀ e, a.div b = .error e → e = .dimensionMismatch) ∧
    a.div b ≠ .error .divideByZero ∧
    Matrix.divScalar ⟨1, 1, 1, 1, [5]⟩ 0 = .error .divideByZero := by
  have herr : ∀ e, a.div b = .error e → e = .dimensionMismatch := by
    intro e he
    by_cases hd : a.dims = b.dims
    · rw [show a.div b = _ from elemwise_ok 0 Int.tdiv a b ha hb hd] at he
      exact Except.noConfusion he
    · rw [show a.div b = _ from elemwise_err 0 Int.tdiv a b hd] at he
      injection he with h
      exact h.symm
  refine ⟨fun hd => elemwise_ok 0 Int.tdiv a b ha hb hd, herr, fun hcon => ?_, rfl⟩
  cases herr _ hcon

/-- Witness for `div_matrix_unguarded`: a divisor matrix containing a zero
element is accepted without any error; the zero lands in the division
unguarded. -/
theorem div_matrix_unguarded_witness :
    Matrix.div ⟨1, 2, 2, 2, [5, 7]⟩ ⟨1, 2, 2, 2, [0, 2]⟩ =
      .ok ⟨1, 2, 2, 2, [Int.tdiv 5 0, Int.tdiv 7 2]⟩ :=
  ((div_matrix_unguarded ⟨1, 2, 2, 2, [5, 7]⟩ ⟨1, 2, 2, 2, [0, 2]⟩
    ⟨rfl, rfl, by decide⟩ ⟨rfl, rfl, by decide⟩).1 rfl).trans (by rfl)

/-- C5.  Scalar `mul` fails with an empty-operand error exactly when the
matrix is empty and otherwise returns a fresh matrix of the same
dimensions with every element multiplied by the scalar; scalar `div` fails
with an empty-operand error when the matrix is empty, with a
divide-by-zero error when the scalar equals zero, and otherwise divides
every element by the scalar using C++ truncating (toward-zero) integer
division, `Int.tdiv`.  The last three conjuncts pin the toward-zero
semantics of `Int.tdiv` itself: it agrees with floor division on
nonnegative operands and is symmetric under negation of either operand. -/
theorem scalar_arith_spec (m : Matrix Int) (s : Int) (hm : WF m) :
    (m.mulScalar s = .error .emptyOperand ↔ m.size = 0) ∧
    (m.size ≠ 0 →
      m.mulScalar s = .ok ⟨m.rows, m.columns, m.size, m.size,
        m.data.map (· * s)⟩) ∧
    (m.size = 0 → m.divScalar s = .error .emptyOperand) ∧
    (m.size ≠ 0 → s = 0 → m.divScalar s = .error .divideByZero) ∧
    (m.size ≠ 0 → s ≠ 0 →
      m.divScalar s = .ok ⟨m.rows, m.columns, m.size, m.size,
        m.data.map (fun e => Int.tdiv e s)⟩) ∧
    (∀ x y : Nat, Int.tdiv (x : Int) (y : Int) = ((x / y : Nat) : Int)) ∧
    (∀ x y : Int, Int.tdiv (-x) y = -(Int.tdiv x y)) ∧
    (∀ x y : Int, Int.tdiv x (-y) = -(Int.tdiv x y)) := by
  obtain ⟨hl, hs, -⟩ := hm
  refine ⟨?_, fun h => ?_, fun h => ?_, fun h hz => ?_, fun h hz => ?_,
    fun x y => by simp [Int.tdiv], Int.neg_tdiv, Int.tdiv_neg⟩
  · by_cases h : m.size = 0
    · simp [Matrix.mulScalar, Matrix.isEmpty, h]
    · simp [Matrix.mulScalar, Matrix.isEmpty, h]
  · have hmap : (m.data.map (· * s)).length = m.size := by
      rw [List.length_map, hl]
    simp [Matrix.mulScalar, Matrix.isEmpty, h, ← hs,
      overwriteFront_exact _ _ _ hmap]
  · simp [Matrix.divScalar, Matrix.isEmpty, h]
  · simp [Matrix.divScalar, Matrix.isEmpty, h, hz]
  · have hmap : (m.data.map (fun e => Int.tdiv e s)).length = m.size := by
      rw [List.length_map, hl]
    simp [Matrix.divScalar, Matrix.isEmpty, h, hz, ← hs,
      overwriteFront_exact _ _ _ hmap]

/-- Witness for `scalar_arith_spec`: scalar multiplication and truncating
scalar division on a 1x2 matrix with a negative entry, the divide-by-zero
rejection, and the empty-operand rejection on the default matrix. -/
theorem scalar_arith_spec_witness :
    Matrix.mulScalar ⟨1, 2, 2, 2, [3, -4]⟩ 2 = .ok ⟨1, 2, 2, 2, [6, -8]⟩ ∧
    Matrix.divScalar ⟨1, 2, 2, 2, [7, -7]⟩ 2 = .ok ⟨1, 2, 2, 2, [3, -3]⟩ ∧
    Matrix.divScalar ⟨1, 2, 2, 2, [7, -7]⟩ 0 = .error .divideByZero ∧
    Matrix.mulScalar (defaultMatrix : Matrix Int) 2 = .error .emptyOperand := by
  refine ⟨?_, ?_, ?_, ?_⟩
  · exact ((scalar_arith_spec ⟨1, 2, 2, 2, [3, -4]⟩ 2
      ⟨rfl, rfl, by decide⟩).2.1 (by decide)).trans (by rfl)
  · exact ((scalar_arith_spec ⟨1, 2, 2, 2, [7, -7]⟩ 2
      ⟨rfl, rfl, by decide⟩).2.2.2.2.1 (by decide) (by decide)).trans (by rfl)
  · exact (scalar_arith_spec ⟨1, 2, 2, 2, [7, -7]⟩ 0
      ⟨rfl, rfl, by decide⟩).2.2.2.1 (by decide) rfl
  · exact (scalar_arith_spec (defaultMatrix : Matrix Int) 2
      ⟨rfl, rfl, Nat.le_refl 0⟩).1.mpr rfl

/-- C6.  Point access `at(row, column)` and the call operator fail with an
out-of-range error exactly when `row >= row_count()` or
`column >= column_count()`; otherwise they return the buffer slot at flat
offset `columns * row + column` (equal to `row*columns + column`), which on
a well-formed matrix always holds a live element.  Both accessors agree,
and being pure functions of the matrix they leave it unchanged in either
case. -/
theorem point_access_spec (m : Matrix α) (r c : Nat) :
    (matAt m r c = .error .outOfRange ↔ m.rows ≤ r ∨ m.columns ≤ c) ∧
    (r < m.rows → c < m.columns →
      matAt m r c = .ok (m.data.get? (m.columns * r + c))) ∧
    matCall m r c = matAt m r c ∧
    (r < m.rows → c < m.columns → WF m →
      ∃ v, matAt m r c = .ok (some v) ∧
        m.data.get? (m.columns * r + c) = some v) := by
  refine ⟨?_, fun hr hc => ?_, rfl, fun hr hc hWF => ?_⟩
  · by_cases h : r ≥ m.rows ∨ c ≥ m.columns
    · simp [matAt, h]
    · simp [matAt, h]
  · rw [matAt, if_neg (by omega)]
  · obtain ⟨hl, hs, -⟩ := hWF
    have hlt : m.columns * r + c < m.data.length := by
      rw [hl, hs]
      exact offset_lt_dimSize m.rows m.columns r c hr hc
    refine ⟨m.data.get ⟨m.columns * r + c, hlt⟩, ?_, List.get?_eq_get hlt⟩
    rw [matAt, if_neg (by omega), List.get?_eq_get hlt]

/-- Witness for `point_access_spec` on the 2x2 matrix holding 1..4:
in-range access at (1,0) yields the element at flat offset 2, access at
(2,0) is out of range. -/
theorem point_access_spec_witness :
    matAt (⟨2, 2, 4, 4, [1, 2, 3, 4]⟩ : Matrix Int) 1 0 = .ok (some 3) ∧
    matAt (⟨2, 2, 4, 4, [1, 2, 3, 4]⟩ : Matrix Int) 2 0 = .error .outOfRange ∧
    matCall (⟨2, 2, 4, 4, [1, 2, 3, 4]⟩ : Matrix Int) 1 0 =
      matAt (⟨2, 2, 4, 4, [1, 2, 3, 4]⟩ : Matrix Int) 1 0 := by
  refine ⟨?_, ?_, (point_access_spec (⟨2, 2, 4, 4, [1, 2, 3, 4]⟩ : Matrix Int) 1 0).2.2.1⟩
  · exact ((point_access_spec (⟨2, 2, 4, 4, [1, 2, 3, 4]⟩ : Matrix Int) 1 0).2.1
      (by decide) (by decide)).trans (by rfl)
  · exact (point_access_spec (⟨2, 2, 4, 4, [1, 2, 3, 4]⟩ : Matrix Int) 2 0).1.mpr
      (Or.inl (by decide))

/-- C8.  `operator<` holds exactly when the left flat row-major element
sequence is lexicographically less than the right one (stated against
Mathlib's `List.Lex`); `operator>` is `rhs < lhs`, `operator<=` is
`!(rhs < lhs)`, `operator>=` is `!(lhs < rhs)`, and `operator!=` is the
negation of `operator==`, which is false whenever the dimensions differ
and otherwise, for matrices whose element ranges have equal length, is
elementwise equality over the full range. -/
theorem comparison_ops_spec (a b : Matrix Int) :
    (matLt intLtB a b = true ↔ List.Lex (· < ·) a.data b.data) ∧
    matGt intLtB a b = matLt intLtB b a ∧
    matLe intLtB a b = !(matLt intLtB b a) ∧
    matGe intLtB a b = !(matLt intLtB a b) ∧
    matNe a b = !(Matrix.beq a b) ∧
    (a.dims ≠ b.dims → Matrix.beq a b = false) ∧
    (a.dims = b.dims → a.data.length = b.data.length →
      (Matrix.beq a b = true ↔ a.data = b.data)) := by
  refine ⟨lexLess_iff a.data b.data, rfl, rfl, rfl, rfl, fun hd => ?_,
    fun hd hlen => ?_⟩
  · rw [Matrix.beq, if_pos hd]
  · rw [Matrix.beq, if_neg (not_not_intro hd)]
    exact stdEqual_iff a.data b.data hlen

/-- Witness for `comparison_ops_spec`: the ordering examples of property
P11 of the specification and equality at equal and at mismatched
dimensions. -/
theorem comparison_ops_spec_witness :
    List.Lex (· < ·) ([1, 2, 3, 4] : List Int) [1, 2, 3, 5] ∧
    matLe intLtB (⟨2, 2, 4, 4, [1, 2, 3, 4]⟩ : Matrix Int) ⟨2, 2, 4, 4, [1, 2, 3, 4]⟩ = true ∧
    Matrix.beq (⟨2, 2, 4, 4, [1, 2, 3, 4]⟩ : Matrix Int) ⟨2, 2, 4, 4, [1, 2, 3, 4]⟩ = true ∧
    Matrix.beq (⟨2, 3, 6, 6, [1, 2, 3, 4, 5, 6]⟩ : Matrix Int)
      ⟨3, 2, 6, 6, [1, 2, 3, 4, 5, 6]⟩ = false := by
  refine ⟨?_, ?_, ?_, ?_⟩
  · exact (comparison_ops_spec ⟨2, 2, 4, 4, [1, 2, 3, 4]⟩
      ⟨2, 2, 4, 4, [1, 2, 3, 5]⟩).1.mp (by rfl)
  · exact (comparison_ops_spec ⟨2, 2, 4, 4, [1, 2, 3, 4]⟩
      ⟨2, 2, 4, 4, [1, 2, 3, 4]⟩).2.2.1.trans (by rfl)
  · exact ((comparison_ops_spec ⟨2, 2, 4, 4, [1, 2, 3, 4]⟩
      ⟨2, 2, 4, 4, [1, 2, 3, 4]⟩).2.2.2.2.2.2 rfl rfl).mpr rfl
  · exact (comparison_ops_spec ⟨2, 3, 6, 6, [1, 2, 3, 4, 5, 6]⟩
      ⟨3, 2, 6, 6, [1, 2, 3, 4, 5, 6]⟩).2.2.2.2.2.1 (by decide)

end Cortex
